import Mathlib

/-!
Verification of the column-reconciliation and filtered-export logic of
`scripts/gen_dump.py`: the script queries the development schema for the
ordered column list of the `uk_lrt` table, intersects it with a frozen
production column set (preserving development ordinal order), reports the
two asymmetric differences, and emits a column-qualified COPY export
statement together with a matching COPY import header.
-/

namespace GenDump

/-- The frozen production column set, transcribed from the inline literal
`prod_cols_set` in the script. -/
def prod_cols_set : Finset String :=
  {"acronym","amended_by","amended_by_change_log","amending","amending_change_log",
   "article_duty_type","created_at","domain","duties","duty_holder","duty_type",
   "duty_type_article","enacted_by","enacted_by_meta","enacting","family","family_ii",
   "function","geo_detail","geo_extent","geo_region","id","is_amending","is_commencing",
   "is_enacting","is_making","is_rescinding","latest_amend_date","latest_amend_date_month",
   "latest_amend_date_year","latest_change_date","latest_rescind_date",
   "latest_rescind_date_month","latest_rescind_date_year","leg_gov_uk_url",
   "linked_amended_by","linked_amending","linked_enacted_by","linked_rescinded_by",
   "linked_rescinding","live","live_conflict","live_conflict_detail","live_description",
   "live_from_changes","live_from_metadata","live_source","md_attachment_paras",
   "md_body_paras","md_coming_into_force_date","md_date","md_dct_valid_date",
   "md_description","md_enactment_date","md_images","md_made_date","md_modified",
   "md_restrict_extent","md_restrict_start_date","md_schedule_paras","md_subjects",
   "md_total_paras","name","number","number_int","old_style_number","popimar",
   "popimar_details","power_holder","powers","purpose","record_change_log","rescinded_by",
   "rescinding","responsibilities","responsibility_holder","rights","rights_holder","role",
   "role_details","role_gvt","role_gvt_details","si_code","tags","title_en","type_class",
   "type_code","type_desc","updated_at","year",
   "🔺_affects_stats_per_law",
   "🔺_rescinding_stats_per_law",
   "🔺_stats_affected_laws_count",
   "🔺_stats_affects_count",
   "🔺_stats_rescinding_laws_count",
   "🔺🔻_stats_self_affects_count",
   "🔺🔻_stats_self_affects_count_per_law_detailed",
   "🔻_affected_by_stats_per_law",
   "🔻_rescinded_by_stats_per_law",
   "🔻_stats_affected_by_count",
   "🔻_stats_affected_by_laws_count",
   "🔻_stats_rescinded_by_laws_count"}

/-- `common_cols = [c for c in dev_cols if c in prod_cols_set]`: filter the
development column list to those present in the production set, preserving
development ordinal order. -/
def common_cols (dev_cols : List String) (P : Finset String) : List String :=
  dev_cols.filter (fun c => decide (c ∈ P))

/-- `dev_only = [c for c in dev_cols if c not in prod_cols_set]`. -/
def dev_only (dev_cols : List String) (P : Finset String) : List String :=
  dev_cols.filter (fun c => decide (c ∉ P))

/-- `prod_only = [c for c in prod_cols_set if c not in set(dev_cols)]`; the
Python set iterates in unspecified order, so the result is modelled as the
set of production columns absent from the development list. -/
def prod_only (dev_cols : List String) (P : Finset String) : Finset String :=
  P.filter (fun c => c ∉ dev_cols)

/-- `quoted = ", ".join(f\x7bc\x7d-style "{c}" wrapped in double quotes for c in
common_cols)`: each name is wrapped in literal double-quote characters with no
escaping, then the pieces are joined with the separator `", "`. -/
def quoted (cols : List String) : String :=
  String.intercalate ", " (cols.map (fun c => "\"" ++ c ++ "\""))

/-- `export_sql`: the COPY-to-file statement run against the development
database, with the quoted common-column list interpolated. -/
def export_sql (cols : List String) : String :=
  "\\COPY (SELECT " ++ quoted cols ++
    " FROM uk_lrt) TO '/tmp/uk_lrt_export.tsv' WITH (FORMAT text)"

/-- The import header written to `/tmp/uk_lrt_import.sql`, with the same
quoted common-column list interpolated. -/
def uk_lrt_import_sql (cols : List String) : String :=
  "COPY uk_lrt (" ++ quoted cols ++ ") FROM STDIN WITH (FORMAT text);\n"

/-- Proof-side helper: the tail of a separator join, `sep ++ a` for each
remaining element. -/
def sepTail (sep : String) : List String → String
  | [] => ""
  | a :: as => sep ++ a ++ sepTail sep as

theorem intercalate_go_eq (sep : String) (as : List String) :
    ∀ acc : String, String.intercalate.go acc sep as = acc ++ sepTail sep as := by
  induction as with
  | nil => intro acc; simp [String.intercalate.go, sepTail]
  | cons a as ih =>
      intro acc
      simp [String.intercalate.go, sepTail, ih, String.append_assoc]

theorem intercalate_cons_eq (sep a : String) (as : List String) :
    String.intercalate sep (a :: as) = a ++ sepTail sep as := by
  simpa [String.intercalate] using intercalate_go_eq sep as a

theorem quoted_nil : quoted [] = "" := rfl

theorem quoted_cons (c : String) (cs : List String) :
    quoted (c :: cs) =
      "\"" ++ c ++ "\"" ++ (if cs = [] then "" else ", " ++ quoted cs) := by
  cases cs with
  | nil => simp [quoted, intercalate_cons_eq, sepTail]
  | cons d ds =>
      simp [quoted, intercalate_cons_eq, sepTail, String.append_assoc]

/-- C1: for every development column list D and production column set P,
`common_cols D P` is the order-preserving sub-sequence of D containing
exactly those elements of D that are members of P. -/
theorem common_cols_subseq_exact (D : List String) (P : Finset String) :
    (common_cols D P).Sublist D ∧
    ∀ c, c ∈ common_cols D P ↔ c ∈ D ∧ c ∈ P := by
  refine ⟨List.filter_sublist _, fun c => ?_⟩
  simp [common_cols, List.mem_filter]

/-- C2: `dev_only D P` is D minus P as a sequence in development order
(each name of D included iff not in P, order preserved as a sub-sequence of
D), and `prod_only D P` is P minus D as a set. -/
theorem dev_only_prod_only_diff (D : List String) (P : Finset String) :
    (dev_only D P).Sublist D ∧
    (∀ c, c ∈ dev_only D P ↔ c ∈ D ∧ c ∉ P) ∧
    (∀ c, c ∈ prod_only D P ↔ c ∈ P ∧ c ∉ D) := by
  refine ⟨List.filter_sublist _, fun c => ?_, fun c => ?_⟩
  · simp [dev_only, List.mem_filter]
  · simp [prod_only, Finset.mem_filter]

/-- C3: if the development column list has no duplicates, the common-column
output has no duplicates. -/
theorem common_cols_nodup (D : List String) (P : Finset String)
    (h : D.Nodup) : (common_cols D P).Nodup :=
  h.filter _

/-- Witness for C3 at D = ["id","name"], P = \x7b"id"\x7d. -/
theorem common_cols_nodup_witness :
    (["id", "name"] : List String).Nodup ∧
    (common_cols ["id", "name"] {"id"}).Nodup :=
  ⟨by decide, common_cols_nodup ["id", "name"] {"id"} (by decide)⟩

/-- C7: when the development column list is empty, the reconciler returns
empty common and dev-only outputs and all of P as prod-only. -/
theorem empty_dev_case (P : Finset String) :
    common_cols [] P = [] ∧ dev_only [] P = [] ∧ prod_only [] P = P := by
  refine ⟨rfl, rfl, ?_⟩
  ext c
  simp [prod_only]

/-- C9: the reconciliation is a deterministic pure function — two runs on
equal inputs produce equal common-column outputs — and re-filtering its own
output changes nothing. -/
theorem reconciliation_deterministic (D D' : List String) (P P' : Finset String)
    (hD : D = D') (hP : P = P') :
    common_cols D P = common_cols D' P' ∧
    common_cols (common_cols D P) P = common_cols D P := by
  subst hD; subst hP
  refine ⟨rfl, ?_⟩
  exact List.filter_eq_self.mpr (fun a ha => (List.mem_filter.mp ha).2)

/-- Witness for C9 at D = ["id"], P = \x7b"id"\x7d. -/
theorem reconciliation_deterministic_witness :
    common_cols ["id"] {"id"} = common_cols ["id"] {"id"} ∧
    common_cols (common_cols ["id"] {"id"}) {"id"} = common_cols ["id"] {"id"} :=
  reconciliation_deterministic ["id"] ["id"] {"id"} {"id"} rfl rfl

/-- C4: when D and P are disjoint, the common-column list is empty, the
quoted column list is the empty string, and both SQL statements are still
built with an empty parenthesized column list, with no guard. -/
theorem empty_common_sql (D : List String) (P : Finset String)
    (h : ∀ c ∈ D, c ∉ P) :
    common_cols D P = [] ∧
    quoted (common_cols D P) = "" ∧
    export_sql (common_cols D P) =
      "\\COPY (SELECT  FROM uk_lrt) TO '/tmp/uk_lrt_export.tsv' WITH (FORMAT text)" ∧
    uk_lrt_import_sql (common_cols D P) =
      "COPY uk_lrt () FROM STDIN WITH (FORMAT text);\n" := by
  have hc : common_cols D P = [] := by
    refine List.filter_eq_nil_iff.mpr (fun a ha => ?_)
    simp [h a ha]
  refine ⟨hc, ?_, ?_, ?_⟩ <;> rw [hc] <;> rfl

/-- Witness for C4 at D = ["secret_col"], P = \x7b"title"\x7d. -/
theorem empty_common_sql_witness :
    (∀ c ∈ (["secret_col"] : List String), c ∉ ({"title"} : Finset String)) ∧
    (common_cols ["secret_col"] {"title"} = [] ∧
     quoted (common_cols ["secret_col"] {"title"}) = "" ∧
     export_sql (common_cols ["secret_col"] {"title"}) =
       "\\COPY (SELECT  FROM uk_lrt) TO '/tmp/uk_lrt_export.tsv' WITH (FORMAT text)" ∧
     uk_lrt_import_sql (common_cols ["secret_col"] {"title"}) =
       "COPY uk_lrt () FROM STDIN WITH (FORMAT text);\n") :=
  ⟨by decide, empty_common_sql ["secret_col"] {"title"} (by decide)⟩

/-- C5: the column list interpolated into the import header is character for
character the same string as the one interpolated into the export statement:
both statements embed the single rendering `quoted cols`. -/
theorem sql_statements_share_column_list (cols : List String) :
    ∃ q, q = quoted cols ∧
      export_sql cols =
        "\\COPY (SELECT " ++ q ++
          " FROM uk_lrt) TO '/tmp/uk_lrt_export.tsv' WITH (FORMAT text)" ∧
      uk_lrt_import_sql cols =
        "COPY uk_lrt (" ++ q ++ ") FROM STDIN WITH (FORMAT text);\n" :=
  ⟨quoted cols, rfl, rfl, rfl⟩

/-- C6: on the spec's concrete example the reconciler returns
Common = ["id","name","year"], DevOnly = ["secret_col"], ProdOnly = \x7b"title"\x7d. -/
theorem example_reconciliation :
    common_cols ["id", "name", "secret_col", "year"] {"id", "name", "year", "title"} =
      ["id", "name", "year"] ∧
    dev_only ["id", "name", "secret_col", "year"] {"id", "name", "year", "title"} =
      ["secret_col"] ∧
    prod_only ["id", "name", "secret_col", "year"] {"id", "name", "year", "title"} =
      {"title"} := by
  refine ⟨by decide, by decide, by decide⟩

/-- C8: a column name present in both D and P — in particular one containing
non-ASCII symbols — is matched by exact string equality and appears in the
common columns in its original, unmodified form. -/
theorem non_ascii_exact_inclusion (c : String) (D : List String) (P : Finset String)
    (hD : c ∈ D) (hP : c ∈ P) : c ∈ common_cols D P := by
  simp [common_cols, List.mem_filter, hD, hP]

set_option maxRecDepth 8192 in
/-- Witness for C8 at the non-ASCII production column name
"🔺_affects_stats_per_law" from the script's literal. -/
theorem non_ascii_exact_inclusion_witness :
    "🔺_affects_stats_per_law" ∈ (["🔺_affects_stats_per_law"] : List String) ∧
    "🔺_affects_stats_per_law" ∈ prod_cols_set ∧
    "🔺_affects_stats_per_law" ∈
      common_cols ["🔺_affects_stats_per_law"] prod_cols_set :=
  ⟨by decide, by decide,
   non_ascii_exact_inclusion "🔺_affects_stats_per_law"
     ["🔺_affects_stats_per_law"] prod_cols_set (by decide) (by decide)⟩

/-- C10: the quoted column list wraps each name in double-quote characters
and joins with ", " with no escaping: the rendering is exactly that
concatenation, every member name is embedded verbatim as a contiguous
substring, and a name containing a double quote yields an odd number of
double-quote characters (a malformed quoted identifier). -/
theorem quoted_literal_concat :
    (quoted [] = "" ∧ ∀ (c : String) (cs : List String),
        quoted (c :: cs) =
          "\"" ++ c ++ "\"" ++ (if cs = [] then "" else ", " ++ quoted cs)) ∧
    (∀ (c : String) (cols : List String), c ∈ cols →
        ∃ l r, (quoted cols).data = l ++ c.data ++ r) ∧
    (quoted ["a\"b"]).data.count '"' = 3 := by
  refine ⟨⟨quoted_nil, quoted_cons⟩, ?_, by decide⟩
  intro c cols
  induction cols with
  | nil => intro h; cases h
  | cons d ds ih =>
      intro hmem
      rcases List.mem_cons.mp hmem with rfl | h
      · refine ⟨"\"".data,
          ("\"" ++ (if ds = [] then "" else ", " ++ quoted ds)).data, ?_⟩
        rw [quoted_cons]
        simp [List.append_assoc]
      · have hne : ds ≠ [] := List.ne_nil_of_mem h
        obtain ⟨l, r, hlr⟩ := ih h
        refine ⟨("\"" ++ d ++ "\"" ++ ", ").data ++ l, r, ?_⟩
        rw [quoted_cons, if_neg hne]
        simp [hlr, List.append_assoc]

/-- Witness for C10 at the name "a\x22b" in the singleton column list. -/
theorem quoted_literal_concat_witness :
    "a\"b" ∈ (["a\"b"] : List String) ∧
    ∃ l r, (quoted ["a\"b"]).data = l ++ "a\"b".data ++ r :=
  ⟨by decide, quoted_literal_concat.2.1 "a\"b" ["a\"b"] (by decide)⟩

end GenDump
